import Mathlib

/-!
# Verification of the SACCO regulatory reporting system

Shallow embedding of the report-generation service, the report/user model
hooks and the download route of the `Reporting-System` repository
(`backend/services/reportGenerator.js`, the Sequelize `Report` and `User`
model definitions, and the report router), together with proofs about the
transformation pipeline, compliance scoring, the orchestrator state
machine and serialization.

JavaScript numbers are modelled as exact rationals (`ℚ`); `NaN` is a
separate constructor.  Records (flat JS objects) are association lists in
insertion order; property writes update the first matching key in place
and append new keys, as JS objects do.  JS's special ordering of
integer-like property keys is not modelled: no claim below depends on the
order of `Object.values`.  The prototype chain of the `{}` grouping
accumulator is modelled: a group key inherited from `Object.prototype`
(e.g. `toString`) is truthy for the group-existence guard even though no
own group exists (see `objectPrototypeKeys`/`groupedTruthy`).
-/

namespace ReportingSystem

/-- A JavaScript primitive value as used by the report pipeline:
numbers (exact rationals), `NaN`, strings, booleans and `undefined`. -/
inductive JSValue where
  | num (q : ℚ)
  | nan
  | str (s : String)
  | bool (b : Bool)
  | undefined
  deriving DecidableEq, Repr

/-- Coercion of a primitive value to a string, as used for object
property keys and by `String()`/`.toString()`.  Exact JS decimal numeral
formatting is not reproduced for non-integers (no claim depends on the
rendering of a numeric string, only strings' identity as keys). -/
def jsToString : JSValue → String
  | .num q => if q.den = 1 then toString q.num else toString q
  | .nan => "NaN"
  | .str s => s
  | .bool b => if b then "true" else "false"
  | .undefined => "undefined"

/-- JS `ToNumber` on primitives, with `none` standing for `NaN`.
String-to-number parsing is not modelled (`none`, i.e. conservatively
`NaN`); no claim exercises arithmetic on string-valued fields. -/
def toNumber : JSValue → Option ℚ
  | .num q => some q
  | .nan => none
  | .str _ => none
  | .bool b => some (if b then 1 else 0)
  | .undefined => none

/-- JS strict equality `===` on primitive values: `NaN === NaN` is
`false`; otherwise values are equal exactly when they have the same type
and the same content. -/
def jsStrictEq : JSValue → JSValue → Bool
  | .nan, _ => false
  | _, .nan => false
  | a, b => decide (a = b)

/-- JS `+`: string concatenation if either operand is a string, numeric
addition otherwise (with `NaN` absorbing). -/
def jsAdd : JSValue → JSValue → JSValue
  | .str s, b => .str (s ++ jsToString b)
  | a, .str s => .str (jsToString a ++ s)
  | a, b =>
    match toNumber a, toNumber b with
    | some p, some q => .num (p + q)
    | _, _ => .nan

/-- JS division by the literal `2`, as in the aggregation code's
`(acc + x) / 2`. -/
def jsDivByTwo (v : JSValue) : JSValue :=
  match toNumber v with
  | some q => .num (q / 2)
  | none => .nan

/-- JS `<` on primitives: lexicographic when both operands are strings,
otherwise numeric with `NaN` making the comparison false. -/
def jsLtVal : JSValue → JSValue → Bool
  | .str a, .str b => decide (a < b)
  | a, b =>
    match toNumber a, toNumber b with
    | some p, some q => decide (p < q)
    | _, _ => false

/-- JS `>` on primitives, mirrored from `jsLtVal`. -/
def jsGtVal (a b : JSValue) : Bool := jsLtVal b a

/-- A flat record (JS object) in insertion order. -/
def Record := List (String × JSValue)

instance : DecidableEq Record := by
  unfold Record; infer_instance

/-- Property read `item[k]`: first matching key, `undefined` if absent. -/
def getField : Record → String → JSValue
  | [], _ => .undefined
  | (k0, v0) :: rest, k => if k0 = k then v0 else getField rest k

/-- Property write `item[k] = v`: overwrite the first matching key in
place, append the key otherwise (JS object insertion-order semantics). -/
def setField : Record → String → JSValue → Record
  | [], k, v => [(k, v)]
  | (k0, v0) :: rest, k, v =>
    if k0 = k then (k0, v) :: rest else (k0, v0) :: setField rest k v

/-- List-of-characters helper: does `s` start with `pat`? -/
def startsWithChars : List Char → List Char → Bool
  | _, [] => true
  | [], _ :: _ => false
  | a :: as, b :: bs => a == b && startsWithChars as bs

/-- List-of-characters helper: does `s` contain `pat` contiguously?
Models `String.prototype.includes`. -/
def containsChars : List Char → List Char → Bool
  | [], pat => pat.isEmpty
  | s@(_ :: rest), pat => startsWithChars s pat || containsChars rest pat

/-- String containment `a.includes(b)`. -/
def strIncludes (s pat : String) : Bool := containsChars s.data pat.data

/-! ## Transformation pipeline (`reportGenerator.js`)

`evaluateFilter`, `aggregateData` and `applyTemplateTransformations`
from `backend/services/reportGenerator.js`.  Exceptions (a JS `throw`,
e.g. calling `.toString()` on `undefined`) are modelled with
`Except String`. -/

/-- One filter criterion `(field, operator, value)` from a template's
transformation configuration. -/
structure Criterion where
  field : String
  operator : String
  value : JSValue
  deriving DecidableEq, Repr

/-- One step of `criteria.every(...)` from `evaluateFilter`: evaluate a
single criterion against a record.  The `contains` branch calls
`itemValue.toString()`, which throws a `TypeError` when the property is
absent (`undefined`); `String.prototype.includes` coerces its argument
with `jsToString`.  An unrecognized operator falls to the `default`
branch and returns `true`. -/
def evalCriterion (item : Record) (c : Criterion) : Except String Bool :=
  let itemValue := getField item c.field
  match c.operator with
  | "equals" => .ok (jsStrictEq itemValue c.value)
  | "greater" => .ok (jsGtVal itemValue c.value)
  | "less" => .ok (jsLtVal itemValue c.value)
  | "contains" =>
    match itemValue with
    | .undefined => .error "TypeError: Cannot read properties of undefined"
    | v => .ok (strIncludes (jsToString v) (jsToString c.value))
  | _ => .ok true
/-- Models `Array.prototype.every` with a possibly-throwing predicate:
short-circuits on the first `false`, propagates the first exception. -/
def jsEvery : List Criterion → (Criterion → Except String Bool) → Except String Bool
  | [], _ => .ok true
  | c :: cs, p => do
    let b ← p c
    if b then jsEvery cs p else pure false

/-- All criteria must hold: `evaluateFilter(item, criteria)`. -/
def evaluateFilter (item : Record) (criteria : List Criterion) : Except String Bool :=
  jsEvery criteria (evalCriterion item)

/-- Models `Array.prototype.filter` with a possibly-throwing predicate,
evaluated left to right. -/
def jsFilter : List Record → (Record → Except String Bool) → Except String (List Record)
  | [], _ => .ok []
  | x :: xs, p => do
    let b ← p x
    let rest ← jsFilter xs p
    pure (if b then x :: rest else rest)

/-- The `filter` case of `applyTemplateTransformations`:
`processedData.filter(item => this.evaluateFilter(item, criteria))`. -/
def applyFilterStep (data : List Record) (criteria : List Criterion) :
    Except String (List Record) :=
  jsFilter data (fun item => evaluateFilter item criteria)

/-- One aggregation output field `{name, sourceField, operation}` from a
template's `aggregate` transformation. -/
structure AggField where
  name : String
  sourceField : String
  operation : String
  deriving DecidableEq, Repr

/-- The per-field update inside `aggregateData`'s inner
`aggregateFields.forEach`: `sum` adds `item[sourceField]`, `count`
increments, `avg` performs the source's `(acc + item[sourceField]) / 2`
(the running-average defect: see the theorems on `avg` below).  A `switch`
with no matching case is a no-op. -/
def applyAggOp (g : Record) (f : AggField) (item : Record) : Record :=
  match f.operation with
  | "sum" => setField g f.name (jsAdd (getField g f.name) (getField item f.sourceField))
  | "count" => setField g f.name (jsAdd (getField g f.name) (.num 1))
  | "avg" => setField g f.name (jsDivByTwo (jsAdd (getField g f.name) (getField item f.sourceField)))
  | _ => g

/-- Lookup in the `grouped` accumulator object (string property keys,
first match). -/
def lookupGroup : List (String × Record) → String → Option Record
  | [], _ => none
  | (k0, g) :: rest, k => if k0 = k then some g else lookupGroup rest k

/-- In-place update of one group of the `grouped` accumulator. -/
def updateGroup : List (String × Record) → String → (Record → Record) → List (String × Record)
  | [], _, _ => []
  | (k0, g) :: rest, k, f =>
    if k0 = k then (k0, f g) :: rest else (k0, g) :: updateGroup rest k f

/-- The property names a plain `{}` object inherits from
`Object.prototype`.  For a group key among these, the read
`grouped[key]` resolves through the prototype chain to the inherited
member (a function, or `Object.prototype` itself for `__proto__`),
which is truthy even though no own group exists. -/
def objectPrototypeKeys : List String :=
  ["constructor", "hasOwnProperty", "isPrototypeOf", "propertyIsEnumerable",
   "toLocaleString", "toString", "valueOf",
   "__defineGetter__", "__defineSetter__", "__lookupGetter__", "__lookupSetter__",
   "__proto__"]

/-- Truthiness of the read `grouped[key]` on the `{}` accumulator: an
own group record (records are objects, hence truthy) or a member
inherited from `Object.prototype`. -/
def groupedTruthy (grouped : List (String × Record)) (key : String) : Bool :=
  (lookupGroup grouped key).isSome || objectPrototypeKeys.contains key

/-- One iteration of `data.forEach` in `aggregateData`: compute the
group key (`item[groupBy]`, coerced to a string property key); the guard
`if (!grouped[key])` creates the group (`{[groupBy]: key}` then every
aggregate field initialised to `0`) only when `grouped[key]` is falsy —
for a key inherited from `Object.prototype` (e.g. `toString`) the guard
sees the truthy inherited member and never creates an own group; then
every aggregate operation is applied to `grouped[key]`.  Writes through
such an inherited key land on the shared prototype member, not on an own
property of the accumulator, so `Object.values` never sees them:
`updateGroup` of a key with no own entry is accordingly the identity on
the accumulator. -/
def aggStep (groupBy : String) (aggregateFields : List AggField)
    (grouped : List (String × Record)) (item : Record) : List (String × Record) :=
  updateGroup
    (if groupedTruthy grouped (jsToString (getField item groupBy)) then grouped
     else
       grouped ++ [(jsToString (getField item groupBy),
         aggregateFields.foldl (fun g f => setField g f.name (.num 0))
           [(groupBy, getField item groupBy)])])
    (jsToString (getField item groupBy))
    (fun g => aggregateFields.foldl (fun g f => applyAggOp g f item) g)

/-- Grouping and aggregation `aggregateData(data, groupBy, aggregateFields)`: group records by the
value of `groupBy` and fold every aggregate field over each group;
returns `Object.values(grouped)`. -/
def aggregateData (data : List Record) (groupBy : String)
    (aggregateFields : List AggField) : List Record :=
  (data.foldl (aggStep groupBy aggregateFields) []).map (·.2)

/-- One entry of a template's `transformations` array, switched on by
`transformation.type`; `other` stands for an unrecognized `type` string,
on which the `switch` does nothing. -/
inductive Transformation where
  | filter (criteria : List Criterion)
  | sort (field : String) (ord : String)
  | aggregate (groupBy : String) (aggregateFields : List AggField)
  | other
  deriving Repr

/-- The `sort` comparator `a[field] - b[field]` (or reversed for
`desc`): `a` precedes `b` when the comparator is not positive; a `NaN`
comparator result is treated as "keep relative order", per the
ECMAScript sort algorithm (it only tests `< 0` and `> 0`). -/
def sortLe (field : String) (ord : String) (a b : Record) : Bool :=
  let x := if ord = "desc" then getField b field else getField a field
  let y := if ord = "desc" then getField a field else getField b field
  match toNumber x, toNumber y with
  | some p, some q => decide (p - q ≤ 0)
  | _, _ => true

/-- Pipeline driver `applyTemplateTransformations(data, transformations)`: fold the
transformation steps over the record sequence, each step's output the
next step's input; a thrown exception (only `filter` can throw here)
aborts the remaining steps.  `sort` is the source's in-place
numeric-comparator sort, modelled as a stable merge sort. -/
def applyTemplateTransformations (data : List Record)
    (transformations : List Transformation) : Except String (List Record) :=
  transformations.foldlM
    (fun processedData t =>
      match t with
      | .filter criteria => applyFilterStep processedData criteria
      | .sort field ord => .ok (processedData.mergeSort (sortLe field ord))
      | .aggregate groupBy aggregateFields => .ok (aggregateData processedData groupBy aggregateFields)
      | .other => .ok processedData)
    data

/-! ## Compliance scoring (`processComplianceChecks`)

The compliance data fetcher marks every check `compliant` or
`violation`, so check status is embedded as a two-valued enum. -/

/-- Status of one regulation check. -/
inductive CheckStatus where
  | compliant
  | violation
  deriving DecidableEq, Repr

/-- One regulation check produced by `fetchComplianceData`. -/
structure ComplianceCheck where
  regulation : String
  status : CheckStatus
  details : String
  severity : String
  deriving DecidableEq, Repr

/-- The result object of `processComplianceChecks`. -/
structure ComplianceResults where
  overallScore : Option ℤ
  violations : List ComplianceCheck
  compliantChecks : List ComplianceCheck
  totalChecks : ℕ
  deriving DecidableEq, Repr

/-- JS `Math.round` on a (non-`NaN`) number `q`, that is `⌊q + 1/2⌋`
(half-way cases round up), computed as an integer floor-division on the
reduced fraction so that it evaluates in the kernel; `jsRound_eq_floor`
below proves the equivalence with `⌊q + 1/2⌋`. -/
def jsRound (q : ℚ) : ℤ := (2 * q.num + q.den) / (2 * (q.den : ℤ))

/-- Compliance scoring `processComplianceChecks(data, regulations)`: split the checks into
violations and compliant checks and compute
`Math.round((compliantChecks.length / data.checks.length) * 100)`.
When there are no checks the JS score is `0/0 = NaN`, modelled as
`none`. -/
def processComplianceChecks (checks : List ComplianceCheck) : ComplianceResults :=
  let violations := checks.filter (fun c => c.status = .violation)
  let compliantChecks := checks.filter (fun c => c.status = .compliant)
  { overallScore :=
      if checks.length = 0 then none
      else some (jsRound ((compliantChecks.length : ℚ) / (checks.length : ℚ) * 100))
    violations := violations
    compliantChecks := compliantChecks
    totalChecks := checks.length }

/-! ## Report orchestrator (`generateReport`)

`generateReport(reportId)` loads the report, persists an in-progress
status, dispatches on `report.type` to one of four strategies, and
persists/notifies success or failure.  A strategy's IO outcome (the
fetch/transform/render pipeline succeeding with an output file, or
throwing) is an explicit parameter; the declarative part of the
orchestrator — which statuses it persists, which events it emits, how
often it invokes the strategy, what it returns — is computed. -/

/-- The persisted report row fields the orchestrator touches. -/
structure GenReport where
  id : ℕ
  type : String
  status : String
  errorMessage : Option String
  startedAt : Bool
  completedAt : Bool
  outputFile : Option String
  deriving DecidableEq, Repr

/-- One `io.emit('reportStatusUpdate', ...)` payload. -/
structure EmitEvent where
  reportId : ℕ
  status : String
  message : String
  downloadUrl : Option String
  deriving DecidableEq, Repr

/-- Outcome of the dispatched strategy (`generateFinancialReport` etc.):
either a result with an output file path, or a thrown error message
(any exception in fetch, transform or render). -/
inductive StrategyOutcome where
  | success (filePath : String)
  | failure (msg : String)
  deriving DecidableEq, Repr

/-- Observable trace of one `generateReport` call: the final report row
(`none` when the lookup found no row, so the failure `UPDATE ... WHERE id`
matched nothing), the persisted status values in write order, the emitted
socket events, how many times a strategy was invoked, and the value
returned or the error re-thrown to the caller. -/
structure GenTrace where
  finalReport : Option GenReport
  statusWrites : List String
  events : List EmitEvent
  strategyRuns : ℕ
  result : Except String String
  deriving Repr

/-- The declared `status` enum of the Sequelize `Report` model. -/
def reportStatusEnum : List String := ["pending", "generating", "completed", "failed"]

/-- The status value `generateReport` persists on entry, before the
strategy dispatch (`await report.update({status: 'processing', ...})`). -/
def startingStatus : String := "processing"

/-- The `catch` block of `generateReport`: persist `failed` with the
error message and a completion timestamp (when the row exists — for a
missing row the `UPDATE` matches nothing and no status is written),
emit the failure event, and re-throw. -/
def generateReportCatch (reportId : ℕ) (found : Option GenReport)
    (writesSoFar : List String) (eventsSoFar : List EmitEvent)
    (runs : ℕ) (errMsg : String) : GenTrace :=
  match found with
  | none =>
    { finalReport := none
      statusWrites := writesSoFar
      events := eventsSoFar ++ [⟨reportId, "failed", errMsg, none⟩]
      strategyRuns := runs
      result := .error errMsg }
  | some r =>
    { finalReport := some { r with status := "failed", errorMessage := some errMsg, completedAt := true }
      statusWrites := writesSoFar ++ ["failed"]
      events := eventsSoFar ++ [⟨reportId, "failed", errMsg, none⟩]
      strategyRuns := runs
      result := .error errMsg }

/-- Orchestrator entry `generateReport(reportId)`.  `report?` is the row `findByPk` found;
`outcome` is what the dispatched strategy would do.  Mirrors the source's
single `try`/`catch`: not-found throws into the catch; otherwise the
in-progress status is persisted and announced, the strategy runs once
(an unsupported `report.type` throws instead), and success or failure is
persisted, announced, and returned/re-thrown. -/
def generateReport (reportId : ℕ) (report? : Option GenReport)
    (outcome : StrategyOutcome) : GenTrace :=
  match report? with
  | none => generateReportCatch reportId none [] [] 0 "Report not found"
  | some report =>
    let r1 : GenReport := { report with status := startingStatus, startedAt := true }
    let writes1 := [startingStatus]
    let events1 := [⟨report.id, startingStatus, "Report generation started", none⟩]
    if report.type = "financial" ∨ report.type = "compliance" ∨
        report.type = "operational" ∨ report.type = "custom" then
      match outcome with
      | .success filePath =>
        let r2 : GenReport := { r1 with status := "completed", completedAt := true, outputFile := some filePath }
        { finalReport := some r2
          statusWrites := writes1 ++ ["completed"]
          events := events1 ++ [⟨report.id, "completed", "Report generated successfully",
            some ("/api/reports/" ++ toString report.id ++ "/download")⟩]
          strategyRuns := 1
          result := .ok filePath }
      | .failure msg =>
        generateReportCatch reportId (some r1) writes1 events1 1 msg
    else
      generateReportCatch reportId (some r1) writes1 events1 0
        ("Unsupported report type: " ++ report.type)

/-! ## Report model hooks (`Report` model, `beforeCreate`)

Dates are modelled as (year, month index 0–11, day) with JS `Date`
month-overflow normalization (`new Date(y, 12, d)` is January of `y+1`).
Day-of-month overflow normalization is not modelled: the hook only
constructs days 15, 30 and 31 in months where those days exist. -/

/-- A calendar date as JS `Date` components. -/
structure JSDate where
  year : ℤ
  month : ℤ
  day : ℤ
  deriving DecidableEq, Repr

/-- Constructor `new Date(y, m, d)` with JS month normalization (floor
division; Lean's `Int` `/` and `%` are floor-style for the positive
divisor 12). -/
def mkJSDate (y m d : ℤ) : JSDate :=
  { year := y + m / 12, month := m % 12, day := d }

/-- The report row fields the `beforeCreate` hook reads and writes. -/
structure NewReport where
  type : String
  dueDate : Option JSDate
  deriving DecidableEq, Repr

/-- The `Report` model's `beforeCreate` hook: when no due date was
supplied, compute one from `now` by report type — `monthly`: the 15th of
the next month; `quarterly`: day 30 of the month after the current
quarter; `annual`: March 31 of the next year; other types: none. -/
def beforeCreate (report : NewReport) (now : JSDate) : NewReport :=
  match report.dueDate with
  | some _ => report
  | none =>
    match report.type with
    | "monthly" => { report with dueDate := some (mkJSDate now.year (now.month + 1) 15) }
    | "quarterly" => { report with dueDate := some (mkJSDate now.year ((now.month / 3 + 1) * 3) 30) }
    | "annual" => { report with dueDate := some (mkJSDate (now.year + 1) 2 31) }
    | _ => report

/-! ## Download route (`GET /:id/download`) -/

/-- The report row fields the download handler reads. -/
structure DLReport where
  status : String
  outputFile : Option String
  title : String
  deriving DecidableEq, Repr

/-- What the download endpoint sends back: a JSON error envelope with an
HTTP status code, or a file stream of the stored output file. -/
inductive DLResponse where
  | jsonError (code : ℕ) (message : String)
  | stream (filePath : String)
  deriving DecidableEq, Repr

/-- The `GET /:id/download` handler: 404 when the report does not exist;
400 `Report not ready for download` when `status !== 'completed' ||
!outputFile`; otherwise stream the file if it exists on disk, 404
`Report file not found` if not. -/
def downloadHandler (report? : Option DLReport) (fileExists : Bool) : DLResponse :=
  match report? with
  | none => .jsonError 404 "Report not found"
  | some report =>
    if report.status ≠ "completed" ∨ report.outputFile = none then
      .jsonError 400 "Report not ready for download"
    else
      match report.outputFile with
      | some f => if fileExists then .stream f else .jsonError 404 "Report file not found"
      | none => .jsonError 400 "Report not ready for download"

/-! ## User serialization (`User.prototype.toJSON`) -/

/-- The attributes of the Sequelize `User` model (`this.get()`).
Optional strings stand for nullable columns. -/
structure UserAttrs where
  id : ℕ
  email : String
  password : String
  firstName : String
  lastName : String
  role : String
  department : Option String
  position : Option String
  phone : Option String
  avatar : Option String
  lastLogin : Option String
  isActive : Bool
  emailVerified : Bool
  emailVerifiedAt : Option String
  passwordResetToken : Option String
  passwordResetExpires : Option String
  preferences : String
  metadata : Option String
  deriving DecidableEq, Repr

/-- An optional string column as a JS value. -/
def optVal : Option String → JSValue
  | some s => .str s
  | none => .undefined

/-- Snapshot `Object.assign({}, this.get())`: the user's attributes as a plain
object, in the model's declaration order. -/
def userGet (u : UserAttrs) : List (String × JSValue) :=
  [("id", .num u.id),
   ("email", .str u.email),
   ("password", .str u.password),
   ("firstName", .str u.firstName),
   ("lastName", .str u.lastName),
   ("role", .str u.role),
   ("department", optVal u.department),
   ("position", optVal u.position),
   ("phone", optVal u.phone),
   ("avatar", optVal u.avatar),
   ("lastLogin", optVal u.lastLogin),
   ("isActive", .bool u.isActive),
   ("emailVerified", .bool u.emailVerified),
   ("emailVerifiedAt", optVal u.emailVerifiedAt),
   ("passwordResetToken", optVal u.passwordResetToken),
   ("passwordResetExpires", optVal u.passwordResetExpires),
   ("preferences", .str u.preferences),
   ("metadata", optVal u.metadata)]

/-- Serialization `User.prototype.toJSON`: copy the attributes and `delete` the
`password`, `passwordResetToken` and `passwordResetExpires` keys. -/
def userToJSON (u : UserAttrs) : List (String × JSValue) :=
  (userGet u).filter (fun kv =>
    kv.1 ≠ "password" ∧ kv.1 ≠ "passwordResetToken" ∧ kv.1 ≠ "passwordResetExpires")

/-! ## Auxiliary definitions used by the statements -/

/-- Spec-side definition, from the claim's words "the 15th day of the
month following the creation date": the (year, month index) pair of the
month after month `m` of year `y`. -/
def followingMonth (y m : ℤ) : ℤ × ℤ :=
  if m = 11 then (y + 1, 0) else (y, m + 1)

/-- The pure per-record predicate an all-`equals` criteria list denotes. -/
def equalsPred (criteria : List Criterion) (item : Record) : Bool :=
  criteria.all (fun c => jsStrictEq (getField item c.field) c.value)

/-- The four operator strings `evaluateFilter` recognizes; any other
operator hits the `default` branch. -/
def recognizedOperators : List String := ["equals", "greater", "less", "contains"]

/-- The numeric value of a record's `name` field (`0` for non-numbers):
the per-group value read back from an aggregated record. -/
def countValue (name : String) (r : Record) : ℚ :=
  match getField r name with
  | .num q => q
  | _ => 0

/-- Sum of the `name` field over the `grouped` accumulator object. -/
def groupsCountSum (name : String) (l : List (String × Record)) : ℚ :=
  (l.map (fun kg => countValue name kg.2)).sum

/-- Every group in the accumulator holds a number in its `name` field. -/
def CountFieldNum (name : String) (l : List (String × Record)) : Prop :=
  ∀ kg ∈ l, ∃ q : ℚ, getField kg.2 name = .num q

/-- Concrete compliance input for the score counterexample: 201 checks,
200 compliant and one violation. -/
def c2CexChecks : List ComplianceCheck :=
  List.replicate 200 ⟨"reg", .compliant, "d", "low"⟩ ++ [⟨"reg", .violation, "d", "high"⟩]

/-- Concrete compliance input for the amended-score witness: one
compliant check and one violation. -/
def c2WitnessChecks : List ComplianceCheck :=
  [⟨"r1", .compliant, "d", "low"⟩, ⟨"r2", .violation, "d", "high"⟩]

/-! ## Basic record lemmas -/

/-- Reading back the field just written. -/
theorem getField_setField (r : Record) (k : String) (v : JSValue) :
    getField (setField r k v) k = v := by
  induction r with
  | nil => simp [setField, getField]
  | cons kv rest ih =>
    obtain ⟨k0, v0⟩ := kv
    by_cases h : k0 = k
    · simp [setField, getField, h]
    · simp [setField, getField, h, ih]

/-- The computable `jsRound` agrees with JS `Math.round`'s
`⌊q + 1/2⌋` on every rational. -/
theorem jsRound_eq_floor (q : ℚ) : jsRound q = ⌊q + 1 / 2⌋ := by
  have hden : (q.den : ℚ) ≠ 0 := by
    exact_mod_cast q.den_nz
  have hq : q + 1 / 2 = ((2 * q.num + (q.den : ℤ) : ℤ) : ℚ) / ((2 * q.den : ℕ) : ℚ) := by
    conv_lhs => rw [← Rat.num_div_den q]
    push_cast
    field_simp
    ring
  rw [jsRound, hq, Rat.floor_intCast_div_natCast]
  congr 1

/-! ## Claim theorems -/

/-- C1: the claim says the `avg` aggregate equals the arithmetic mean of
the grouped values for groups of size greater than 2.  The code instead
computes the running two-value average `(acc + x) / 2` (its own comment
concedes this "would need to track count for proper average").  Evaluated
at a single group of three values 2, 4, 12: the code produces 29/4 =
7.25, while their arithmetic mean is (2 + 4 + 12)/3 = 6. -/
theorem C1_avg_defect_eval :
    aggregateData
      [[("g", .str "G"), ("v", .num 2)],
       [("g", .str "G"), ("v", .num 4)],
       [("g", .str "G"), ("v", .num 12)]] "g" [⟨"a", "v", "avg"⟩]
      = [[("g", .str "G"), ("a", .num (29 / 4))]] ∧
    (29 : ℚ) / 4 ≠ (2 + 4 + 12) / 3 := by
  constructor
  · simp [aggregateData, aggStep, applyAggOp, lookupGroup, updateGroup, getField,
      setField, jsToString, jsAdd, jsDivByTwo, toNumber, List.foldl]
    norm_num
  · norm_num

/-- Length of a filtered replicate. -/
theorem length_filter_replicate {α : Type} (n : ℕ) (x : α) (p : α → Bool) :
    ((List.replicate n x).filter p).length = if p x then n else 0 := by
  induction n with
  | zero => simp
  | succ n ih =>
    rw [List.replicate_succ, List.filter_cons]
    by_cases h : p x <;> simp [h, ih]

/-- C2 counterexample: with 201 checks of which exactly one is a
violation, `processComplianceChecks` rounds 100·200/201 ≈ 99.502 up to a
score of 100, so "score is 100 iff there are zero violations" fails as
stated on the code. -/
theorem C2_score_100_with_violation :
    (processComplianceChecks c2CexChecks).overallScore = some 100 ∧
    (processComplianceChecks c2CexChecks).violations.length ≠ 0 := by
  have hfc : (List.filter (fun c => decide (c.status = CheckStatus.compliant)) c2CexChecks).length = 200 := by
    rw [c2CexChecks, List.filter_append, List.length_append, length_filter_replicate]
    norm_num
    decide
  have hfv : (List.filter (fun c => decide (c.status = CheckStatus.violation)) c2CexChecks).length = 1 := by
    rw [c2CexChecks, List.filter_append, List.length_append, length_filter_replicate]
    norm_num
    decide
  have hlen : c2CexChecks.length = 201 := by
    rw [c2CexChecks, List.length_append, List.length_replicate]
    rfl
  refine ⟨?_, ?_⟩
  · simp only [processComplianceChecks, hlen, hfc]
    norm_num [jsRound_eq_floor, Int.floor_eq_iff]
  · simp only [processComplianceChecks, hfv]
    norm_num

set_option maxRecDepth 8192 in
/-- C3: the claim says the report status only ever holds
`pending`/`generating`/`completed`/`failed` and that `generateReport`
sets it to `generating` before dispatching a strategy.  The code instead
persists `processing` — a value outside the `Report` model's own declared
status enum — as its first status write, evaluated here on a concrete
pending financial report. -/
theorem C3_processing_status_eval :
    (generateReport 1 (some ⟨1, "financial", "pending", none, false, false, none⟩)
        (.success "out.pdf")).statusWrites.head? = some startingStatus ∧
    startingStatus ∉ reportStatusEnum ∧ startingStatus ≠ "generating" := by
  refine ⟨?_, by decide, by decide⟩
  simp [generateReport, generateReportCatch, startingStatus]

/-- C4: when the dispatched strategy throws (any exception in the
fetch/transform/render pipeline), `generateReport` persists status
`failed` together with the error message and a completion timestamp,
emits a `reportStatusUpdate` event carrying the error message, re-throws
the error to its caller, and invokes the strategy exactly once (no
retry). -/
theorem C4_failure_persists_failed (r : GenReport) (msg : String)
    (h : r.type = "financial" ∨ r.type = "compliance" ∨
      r.type = "operational" ∨ r.type = "custom") :
    (generateReport r.id (some r) (.failure msg)).finalReport =
      some { r with status := "failed", errorMessage := some msg, startedAt := true, completedAt := true } ∧
    (generateReport r.id (some r) (.failure msg)).statusWrites = [startingStatus, "failed"] ∧
    ⟨r.id, "failed", msg, none⟩ ∈ (generateReport r.id (some r) (.failure msg)).events ∧
    (generateReport r.id (some r) (.failure msg)).result = .error msg ∧
    (generateReport r.id (some r) (.failure msg)).strategyRuns = 1 := by
  rcases h with h | h | h | h <;>
    simp [generateReport, generateReportCatch, h]

/-- C4 witness: the failure path evaluated on a concrete financial
report. -/
theorem C4_failure_persists_failed_witness :
    (generateReport 7 (some ⟨7, "financial", "pending", none, false, false, none⟩)
        (.failure "boom")).finalReport =
      some ⟨7, "financial", "failed", some "boom", true, true, none⟩ ∧
    (generateReport 7 (some ⟨7, "financial", "pending", none, false, false, none⟩)
        (.failure "boom")).statusWrites = [startingStatus, "failed"] ∧
    (⟨7, "failed", "boom", none⟩ : EmitEvent) ∈
      (generateReport 7 (some ⟨7, "financial", "pending", none, false, false, none⟩)
        (.failure "boom")).events ∧
    (generateReport 7 (some ⟨7, "financial", "pending", none, false, false, none⟩)
        (.failure "boom")).result = .error "boom" ∧
    (generateReport 7 (some ⟨7, "financial", "pending", none, false, false, none⟩)
        (.failure "boom")).strategyRuns = 1 :=
  C4_failure_persists_failed ⟨7, "financial", "pending", none, false, false, none⟩
    "boom" (Or.inl rfl)

/-- A successful group lookup returns a member of the accumulator. -/
theorem lookupGroup_mem (l : List (String × Record)) (key : String) (g : Record)
    (h : lookupGroup l key = some g) : (key, g) ∈ l := by
  induction l with
  | nil => simp [lookupGroup] at h
  | cons kg rest ih =>
    obtain ⟨k0, g0⟩ := kg
    by_cases hk : k0 = key
    · subst hk
      simp [lookupGroup] at h
      subst h
      exact List.mem_cons_self _ _
    · simp [lookupGroup, hk] at h
      exact List.mem_cons_of_mem _ (ih h)

/-- Updating the group stored at `key` changes `groupsCountSum` by the
change in that group's count value. -/
theorem groupsCountSum_updateGroup (name key : String) (f : Record → Record)
    (l : List (String × Record)) (g : Record) (hl : lookupGroup l key = some g) :
    groupsCountSum name (updateGroup l key f) =
      groupsCountSum name l - countValue name g + countValue name (f g) := by
  induction l with
  | nil => simp [lookupGroup] at hl
  | cons kg rest ih =>
    obtain ⟨k0, g0⟩ := kg
    by_cases hk : k0 = key
    · have hg : g0 = g := by simpa [lookupGroup, hk] using hl
      subst hg
      have hupd : updateGroup ((k0, g0) :: rest) key f = (k0, f g0) :: rest := by
        simp [updateGroup, hk]
      rw [hupd]
      simp only [groupsCountSum, List.map_cons, List.sum_cons]
      ring
    · have hl2 : lookupGroup rest key = some g := by simpa [lookupGroup, hk] using hl
      have hupd : updateGroup ((k0, g0) :: rest) key f =
          (k0, g0) :: updateGroup rest key f := by
        simp [updateGroup, hk]
      rw [hupd]
      simp only [groupsCountSum, List.map_cons, List.sum_cons] at ih ⊢
      rw [ih hl2]
      ring

/-- Updating one group with a number-preserving function keeps every
count field numeric. -/
theorem countFieldNum_updateGroup (name key : String) (f : Record → Record)
    (l : List (String × Record))
    (hf : ∀ g : Record, (∃ q : ℚ, getField g name = .num q) →
      ∃ q : ℚ, getField (f g) name = .num q)
    (hl : CountFieldNum name l) : CountFieldNum name (updateGroup l key f) := by
  induction l with
  | nil => intro kg hkg; simp [updateGroup] at hkg
  | cons kg0 rest ih =>
    obtain ⟨k0, g0⟩ := kg0
    have hl0 : ∃ q : ℚ, getField g0 name = .num q :=
      hl (k0, g0) (List.mem_cons_self _ _)
    have hlr : CountFieldNum name rest :=
      fun y hy => hl y (List.mem_cons_of_mem _ hy)
    intro x hx
    by_cases hk : k0 = key
    · have hupd : updateGroup ((k0, g0) :: rest) key f = (k0, f g0) :: rest := by
        simp [updateGroup, hk]
      rw [hupd] at hx
      rcases List.mem_cons.mp hx with hx | hx
      · subst hx; exact hf g0 hl0
      · exact hlr x hx
    · have hupd : updateGroup ((k0, g0) :: rest) key f =
          (k0, g0) :: updateGroup rest key f := by
        simp [updateGroup, hk]
      rw [hupd] at hx
      rcases List.mem_cons.mp hx with hx | hx
      · subst hx; exact hl0
      · exact ih hlr x hx

/-- When `key` is absent, updating the freshly appended entry rewrites
just that entry. -/
theorem updateGroup_append_of_lookup_none (l : List (String × Record))
    (key : String) (g0 : Record) (f : Record → Record)
    (hl : lookupGroup l key = none) :
    updateGroup (l ++ [(key, g0)]) key f = l ++ [(key, f g0)] := by
  induction l with
  | nil => simp [updateGroup]
  | cons kg rest ih =>
    obtain ⟨k0, g⟩ := kg
    by_cases hk : k0 = key
    · simp [lookupGroup, hk] at hl
    · have hl2 : lookupGroup rest key = none := by simpa [lookupGroup, hk] using hl
      simp [updateGroup, hk, ih hl2]

/-- The `count` operation turns a numeric count field `q` into `q + 1`. -/
theorem applyAggOp_count_step (g : Record) (name src : String) (item : Record)
    (q : ℚ) (hg : getField g name = .num q) :
    getField (applyAggOp g ⟨name, src, "count"⟩ item) name = .num (q + 1) := by
  simp only [applyAggOp, hg, jsAdd, toNumber]
  exact getField_setField g name _

/-- The per-item step of a single-`count`-field aggregation adds exactly
one to the total of the per-group counts and keeps them numeric, as long
as the item's group key is not inherited from `Object.prototype` (an
inherited key makes the step the identity: see the C5 counterexample). -/
theorem aggStep_count (gb name src : String) (grouped : List (String × Record))
    (item : Record) (hinv : CountFieldNum name grouped)
    (hkey : objectPrototypeKeys.contains (jsToString (getField item gb)) = false) :
    groupsCountSum name (aggStep gb [⟨name, src, "count"⟩] grouped item) =
      groupsCountSum name grouped + 1 ∧
    CountFieldNum name (aggStep gb [⟨name, src, "count"⟩] grouped item) := by
  have hf : ∀ g : Record, (∃ q : ℚ, getField g name = .num q) →
      ∃ q : ℚ, getField (applyAggOp g ⟨name, src, "count"⟩ item) name = .num q :=
    fun g hq => hq.elim (fun q hgq => ⟨q + 1, applyAggOp_count_step g name src item q hgq⟩)
  simp only [aggStep, List.foldl_cons, List.foldl_nil]
  cases hlk : lookupGroup grouped (jsToString (getField item gb)) with
  | some g =>
    rw [if_pos (show groupedTruthy grouped (jsToString (getField item gb)) = true by
      simp [groupedTruthy, hlk])]
    obtain ⟨q, hq⟩ := hinv _ (lookupGroup_mem _ _ _ hlk)
    constructor
    · rw [groupsCountSum_updateGroup name _ _ grouped g hlk]
      have h1 : countValue name g = q := by simp [countValue, hq]
      have h2 : countValue name (applyAggOp g ⟨name, src, "count"⟩ item) = q + 1 := by
        simp [countValue, applyAggOp_count_step g name src item q hq]
      rw [h1, h2]
      ring
    · exact countFieldNum_updateGroup name _ _ grouped hf hinv
  | none =>
    rw [if_neg (show ¬groupedTruthy grouped (jsToString (getField item gb)) = true by
      simp only [groupedTruthy, hlk, Option.isSome_none, Bool.false_or]
      simpa using hkey)]
    have hinit : getField (setField [(gb, getField item gb)] name (.num 0)) name = .num 0 :=
      getField_setField _ name _
    rw [updateGroup_append_of_lookup_none _ _ _ _ hlk]
    have h2 : countValue name (applyAggOp
        (setField [(gb, getField item gb)] name (.num 0)) ⟨name, src, "count"⟩ item) = 1 := by
      have := applyAggOp_count_step _ name src item 0 hinit
      simp [countValue, this]
    constructor
    · simp only [groupsCountSum, List.map_append, List.sum_append, List.map_cons,
        List.sum_cons, List.map_nil, List.sum_nil]
      rw [h2]
      ring
    · intro x hx
      rcases List.mem_append.mp hx with hx | hx
      · exact hinv x hx
      · simp only [List.mem_singleton] at hx
        subst hx
        exact ⟨1, by simpa using applyAggOp_count_step _ name src item 0 hinit⟩

/-- Folding the single-`count`-field step over the data adds the number
of records to the total of the per-group counts, provided no record's
group key is inherited from `Object.prototype`. -/
theorem foldl_aggStep_count (gb name src : String) (data : List Record)
    (hdata : ∀ item ∈ data,
      objectPrototypeKeys.contains (jsToString (getField item gb)) = false) :
    ∀ grouped, CountFieldNum name grouped →
      groupsCountSum name (data.foldl (aggStep gb [⟨name, src, "count"⟩]) grouped) =
        groupsCountSum name grouped + (data.length : ℚ) := by
  induction data with
  | nil => intro grouped _; simp
  | cons item rest ih =>
    intro grouped hinv
    have hk := hdata item (List.mem_cons_self _ _)
    have h := aggStep_count gb name src grouped item hinv hk
    simp only [List.foldl_cons, List.length_cons]
    rw [ih (fun x hx => hdata x (List.mem_cons_of_mem _ hx)) _ h.2, h.1]
    push_cast
    ring

/-- C5 counterexample: a record whose group value is `toString` — a
property name inherited from `Object.prototype` — never gets an own
group created (the `!grouped[key]` guard sees the truthy inherited
function), so `Object.values` drops it entirely and the per-group counts
sum to 0 while N = 1. -/
theorem C5_count_toString_dropped :
    aggregateData [[("g", JSValue.str "toString"), ("v", JSValue.num 1)]] "g"
      [⟨"c", "v", "count"⟩] = [] ∧
    ((aggregateData [[("g", JSValue.str "toString"), ("v", JSValue.num 1)]] "g"
      [⟨"c", "v", "count"⟩]).map (countValue "c")).sum ≠
      (([[("g", JSValue.str "toString"), ("v", JSValue.num 1)]] : List Record).length : ℚ) := by
  have h0 : aggregateData [[("g", JSValue.str "toString"), ("v", JSValue.num 1)]] "g"
      [⟨"c", "v", "count"⟩] = [] := rfl
  refine ⟨h0, ?_⟩
  rw [h0]
  simp

/-- C5 amended: a single-field `count` aggregation partitions the input —
the per-group counts sum to the number of input records — for every
grouping key and every data set in which no record's group-by value
stringifies to an `Object.prototype` property name (such records are
silently dropped by the code: see `C5_count_toString_dropped`). -/
theorem C5_count_partition (data : List Record) (gb name src : String)
    (h : data.all (fun item =>
      !(objectPrototypeKeys.contains (jsToString (getField item gb)))) = true) :
    ((aggregateData data gb [⟨name, src, "count"⟩]).map (countValue name)).sum =
      (data.length : ℚ) := by
  have hdata : ∀ item ∈ data,
      objectPrototypeKeys.contains (jsToString (getField item gb)) = false := by
    intro item hitem
    have := List.all_eq_true.mp h item hitem
    simpa using this
  have hfold := foldl_aggStep_count gb name src data hdata []
    (by intro kg hkg; simp at hkg)
  simp only [groupsCountSum, List.map_nil, List.sum_nil, zero_add] at hfold
  simp only [aggregateData, List.map_map]
  rw [show (countValue name ∘ fun x : String × Record => x.2) =
    (fun kg : String × Record => countValue name kg.2) from rfl]
  exact hfold

/-- C5 witness: two records sharing the ordinary group key `A` — the
counts sum to 2. -/
theorem C5_count_partition_witness :
    (([[("g", JSValue.str "A")], [("g", JSValue.str "A")]] : List Record).all
      (fun item =>
        !(objectPrototypeKeys.contains (jsToString (getField item "g")))) = true) ∧
    ((aggregateData [[("g", JSValue.str "A")], [("g", JSValue.str "A")]] "g"
      [⟨"c", "v", "count"⟩]).map (countValue "c")).sum =
      (([[("g", JSValue.str "A")], [("g", JSValue.str "A")]] : List Record).length : ℚ) :=
  ⟨rfl, C5_count_partition [[("g", JSValue.str "A")], [("g", JSValue.str "A")]]
    "g" "c" "v" rfl⟩

/-- Under an all-`equals` criteria list, `evaluateFilter` never throws
and computes the pure per-record predicate `equalsPred`. -/
theorem evaluateFilter_equals (criteria : List Criterion) (item : Record)
    (h : ∀ c ∈ criteria, c.operator = "equals") :
    evaluateFilter item criteria = .ok (equalsPred criteria item) := by
  induction criteria with
  | nil => rfl
  | cons c cs ih =>
    have hc := h c (List.mem_cons_self c cs)
    have hcs : ∀ x ∈ cs, x.operator = "equals" :=
      fun x hx => h x (List.mem_cons_of_mem c hx)
    have ih' := ih hcs
    simp only [evaluateFilter, jsEvery] at ih' ⊢
    simp only [evalCriterion, hc, equalsPred, List.all_cons]
    cases hb : jsStrictEq (getField item c.field) c.value
    · simp [Bind.bind, Except.bind, pure, Except.pure]
    · simp only [Bind.bind, Except.bind, if_true]
      rw [ih']
      simp [equalsPred]

/-- A filter whose predicate never throws is `List.filter`. -/
theorem jsFilter_ok (l : List Record) (p : Record → Except String Bool)
    (q : Record → Bool) (hpq : ∀ x, p x = .ok (q x)) :
    jsFilter l p = .ok (l.filter q) := by
  induction l with
  | nil => rfl
  | cons x xs ih =>
    simp only [jsFilter, hpq x, ih, List.filter_cons, Bind.bind, Except.bind]
    cases hq : q x <;> simp [hq, pure, Except.pure]

/-- C6: with criteria that all use operator `equals`, the filter step is
idempotent — filtering the already-filtered records by the same criteria
returns them unchanged. -/
theorem C6_filter_idempotent (data : List Record) (criteria : List Criterion)
    (h : criteria.all (fun c => c.operator == "equals") = true)
    (once : List Record) (h1 : applyFilterStep data criteria = .ok once) :
    applyFilterStep once criteria = .ok once := by
  have h' : ∀ c ∈ criteria, c.operator = "equals" := by
    intro c hc
    have := List.all_eq_true.mp h c hc
    simpa using this
  have hev : ∀ item, evaluateFilter item criteria = .ok (equalsPred criteria item) :=
    fun item => evaluateFilter_equals criteria item h'
  have h2 : applyFilterStep data criteria =
      .ok (data.filter (fun item => equalsPred criteria item)) :=
    jsFilter_ok data _ _ hev
  rw [h1] at h2
  have honce : once = data.filter (fun item => equalsPred criteria item) := by
    exact Except.ok.inj h2
  subst honce
  rw [applyFilterStep, jsFilter_ok _ _ _ hev, List.filter_filter]
  simp

/-- C6 witness: one `equals` criterion applied twice to a two-record
list. -/
theorem C6_filter_idempotent_witness :
    ([⟨"a", "equals", JSValue.num 1⟩] : List Criterion).all
      (fun c => c.operator == "equals") = true ∧
    applyFilterStep [[("a", JSValue.num 1)], [("a", JSValue.num 2)]]
      [⟨"a", "equals", JSValue.num 1⟩] = .ok [[("a", JSValue.num 1)]] ∧
    applyFilterStep [[("a", JSValue.num 1)]] [⟨"a", "equals", JSValue.num 1⟩] =
      .ok [[("a", JSValue.num 1)]] :=
  ⟨rfl, rfl,
    C6_filter_idempotent [[("a", JSValue.num 1)], [("a", JSValue.num 2)]]
      [⟨"a", "equals", JSValue.num 1⟩] rfl [[("a", JSValue.num 1)]] rfl⟩

/-- A criterion whose operator is unrecognized falls through the
`switch`'s `default` branch and holds. -/
theorem evalCriterion_default (item : Record) (c : Criterion)
    (h : recognizedOperators.contains c.operator = false) :
    evalCriterion item c = .ok true := by
  have h' : ¬(c.operator = "equals" ∨ c.operator = "greater" ∨
      c.operator = "less" ∨ c.operator = "contains") := by
    simpa [recognizedOperators] using h
  push_neg at h'
  obtain ⟨h1, h2, h3, h4⟩ := h'
  unfold evalCriterion
  split <;> simp_all

/-- Every-criterion-true makes `jsEvery` succeed with `true`. -/
theorem jsEvery_true (cs : List Criterion) (p : Criterion → Except String Bool)
    (hp : ∀ c ∈ cs, p c = .ok true) : jsEvery cs p = .ok true := by
  induction cs with
  | nil => rfl
  | cons c cs ih =>
    have hc := hp c (List.mem_cons_self c cs)
    have ih' := ih (fun x hx => hp x (List.mem_cons_of_mem c hx))
    simp [jsEvery, hc, ih', Bind.bind, Except.bind]

/-- C9: a filter step whose criteria all use unrecognized operators
keeps every record — the step returns its input unchanged and raises no
error. -/
theorem C9_unrecognized_operator_identity (data : List Record)
    (criteria : List Criterion)
    (h : criteria.all (fun c => !(recognizedOperators.contains c.operator)) = true) :
    applyFilterStep data criteria = .ok data := by
  have hev : ∀ item, evaluateFilter item criteria = .ok true := by
    intro item
    refine jsEvery_true criteria _ (fun c hc => ?_)
    refine evalCriterion_default item c ?_
    have := List.all_eq_true.mp h c hc
    simpa using this
  rw [applyFilterStep, jsFilter_ok data _ (fun _ => true) hev]
  simp

/-- C9 witness: a `regex` criterion (not a recognized operator) leaves a
one-record list untouched. -/
theorem C9_unrecognized_operator_identity_witness :
    ([⟨"x", "regex", JSValue.num 1⟩] : List Criterion).all
      (fun c => !(recognizedOperators.contains c.operator)) = true ∧
    applyFilterStep [[("x", JSValue.num 5)]] [⟨"x", "regex", JSValue.num 1⟩] =
      .ok [[("x", JSValue.num 5)]] :=
  ⟨rfl, C9_unrecognized_operator_identity [[("x", JSValue.num 5)]]
    [⟨"x", "regex", JSValue.num 1⟩] rfl⟩

/-- C7: a monthly report created without a due date receives the 15th of
the month following the creation date (JS `Date` month rollover
included). -/
theorem C7_monthly_dueDate (r : NewReport) (now : JSDate)
    (h1 : r.type = "monthly") (h2 : r.dueDate = none)
    (h3 : 0 ≤ now.month) (h4 : now.month < 12) :
    (beforeCreate r now).dueDate =
      some ⟨(followingMonth now.year now.month).1,
            (followingMonth now.year now.month).2, 15⟩ := by
  obtain ⟨ty, dd⟩ := r
  simp only at h1 h2
  subst h1 h2
  by_cases h : now.month = 11
  · simp [beforeCreate, mkJSDate, followingMonth, h]
  · simp only [beforeCreate, mkJSDate, followingMonth, if_neg h]
    refine congrArg some ?_
    refine congrArg₂ (fun a b => JSDate.mk a b 15) ?_ ?_ <;> omega

/-- C7 witness: created in December 2024, the due date is January 15,
2025 (month index 0). -/
theorem C7_monthly_dueDate_witness :
    (⟨"monthly", none⟩ : NewReport).type = "monthly" ∧
    (⟨"monthly", none⟩ : NewReport).dueDate = none ∧
    0 ≤ (⟨2024, 11, 3⟩ : JSDate).month ∧ (⟨2024, 11, 3⟩ : JSDate).month < 12 ∧
    (beforeCreate ⟨"monthly", none⟩ ⟨2024, 11, 3⟩).dueDate =
      some ⟨(followingMonth 2024 11).1, (followingMonth 2024 11).2, 15⟩ :=
  ⟨rfl, rfl, by decide, by decide,
    C7_monthly_dueDate _ _ rfl rfl (by decide) (by decide)⟩

/-- C8: requesting download of a report that exists but whose status is
not `completed` (or whose output file is unset) yields the 400 JSON
error envelope, never a file stream. -/
theorem C8_download_not_completed (r : DLReport) (fileExists : Bool)
    (h : r.status ≠ "completed" ∨ r.outputFile = none) :
    downloadHandler (some r) fileExists =
      .jsonError 400 "Report not ready for download" := by
  simp only [downloadHandler, if_pos h]

/-- C8 witness: a pending report with an output file present on disk
still gets the 400 envelope. -/
theorem C8_download_not_completed_witness :
    ((⟨"pending", some "f.pdf", "t"⟩ : DLReport).status ≠ "completed" ∨
      (⟨"pending", some "f.pdf", "t"⟩ : DLReport).outputFile = none) ∧
    downloadHandler (some ⟨"pending", some "f.pdf", "t"⟩) true =
      .jsonError 400 "Report not ready for download" :=
  ⟨Or.inl (by decide), C8_download_not_completed _ _ (Or.inl (by decide))⟩

/-- C10: `User.prototype.toJSON` is independent of the `password`,
`passwordResetToken` and `passwordResetExpires` attributes — two users
differing only there serialize identically — and its output never
contains those keys. -/
theorem C10_toJSON_secret_independent (u : UserAttrs) (pw : String)
    (tok texp : Option String) :
    userToJSON { u with password := pw, passwordResetToken := tok, passwordResetExpires := texp } = userToJSON u ∧
    (userToJSON u).all (fun kv =>
      decide (kv.1 ≠ "password" ∧ kv.1 ≠ "passwordResetToken" ∧
        kv.1 ≠ "passwordResetExpires")) = true :=
  ⟨rfl, rfl⟩

/-! ## Compliance score: the amended claim -/

/-- With every check `compliant` or `violation`, the two filtered counts
partition the checks. -/
theorem length_filter_status (checks : List ComplianceCheck) :
    (checks.filter (fun c => c.status = CheckStatus.compliant)).length +
      (checks.filter (fun c => c.status = CheckStatus.violation)).length =
      checks.length := by
  induction checks with
  | nil => rfl
  | cons ch rest ih =>
    cases h : ch.status <;> simp [List.filter_cons, h] <;> omega

/-- The overall score of a nonempty check list, unfolded. -/
theorem processComplianceChecks_score (checks : List ComplianceCheck)
    (h : checks.length ≠ 0) :
    (processComplianceChecks checks).overallScore =
      some (jsRound (((checks.filter
        (fun c => c.status = CheckStatus.compliant)).length : ℚ) /
        (checks.length : ℚ) * 100)) := by
  simp only [processComplianceChecks]
  rw [if_neg h]

/-- A rounded score is never negative. -/
theorem jsRound_score_nonneg (c t : ℕ) :
    0 ≤ jsRound ((c : ℚ) / (t : ℚ) * 100) := by
  rw [jsRound_eq_floor]
  apply Int.floor_nonneg.mpr
  have h : 0 ≤ (c : ℚ) / (t : ℚ) * 100 := by positivity
  linarith

/-- A rounded score of at most all-compliant never exceeds 100. -/
theorem jsRound_score_le_100 (c t : ℕ) (hct : c ≤ t) (ht : 0 < t) :
    jsRound ((c : ℚ) / (t : ℚ) * 100) ≤ 100 := by
  rw [jsRound_eq_floor]
  have ht' : (0 : ℚ) < t := by exact_mod_cast ht
  have h1 : (c : ℚ) / t ≤ 1 := by
    rw [div_le_one ht']
    exact_mod_cast hct
  have h2 : (c : ℚ) / t * 100 + 1 / 2 < 101 := by nlinarith
  have hlt : ⌊(c : ℚ) / t * 100 + 1 / 2⌋ < (101 : ℤ) := by
    apply Int.floor_lt.mpr
    push_cast
    linarith
  omega

/-- All checks compliant rounds to exactly 100. -/
theorem jsRound_score_full (t : ℕ) (ht : 0 < t) :
    jsRound ((t : ℚ) / (t : ℚ) * 100) = 100 := by
  have ht' : (t : ℚ) ≠ 0 := by
    exact_mod_cast ht.ne'
  rw [div_self ht', one_mul, jsRound_eq_floor]
  norm_num [Int.floor_eq_iff]

/-- No check compliant rounds to exactly 0. -/
theorem jsRound_score_zero (t : ℕ) :
    jsRound ((0 : ℚ) / (t : ℚ) * 100) = 0 := by
  rw [zero_div, zero_mul, jsRound_eq_floor]
  norm_num [Int.floor_eq_iff]

/-- With at most 199 checks, any violation keeps the rounded score
below 100. -/
theorem jsRound_score_lt_100 (c t : ℕ) (hc : c < t) (ht : t ≤ 199) :
    jsRound ((c : ℚ) / (t : ℚ) * 100) < 100 := by
  have ht0 : 0 < t := by omega
  have ht0' : (0 : ℚ) < t := by exact_mod_cast ht0
  rw [jsRound_eq_floor]
  have hfl : ⌊(c : ℚ) / t * 100 + 1 / 2⌋ < (100 : ℤ) := by
    apply Int.floor_lt.mpr
    have e : (c : ℚ) / t * 100 + 1 / 2 = ((c : ℚ) * 200 + t) / (2 * t) := by
      field_simp
      ring
    rw [e, div_lt_iff₀ (by positivity)]
    have hc' : (c : ℚ) + 1 ≤ t := by exact_mod_cast hc
    have ht' : (t : ℚ) ≤ 199 := by exact_mod_cast ht
    push_cast
    nlinarith
  omega

/-- With at most 199 checks, any compliant check keeps the rounded score
above 0. -/
theorem jsRound_score_pos (c t : ℕ) (hc : 0 < c) (ht : t ≤ 199) (ht0 : 0 < t) :
    0 < jsRound ((c : ℚ) / (t : ℚ) * 100) := by
  have ht0' : (0 : ℚ) < t := by exact_mod_cast ht0
  rw [jsRound_eq_floor]
  have hfl : (1 : ℤ) ≤ ⌊(c : ℚ) / t * 100 + 1 / 2⌋ := by
    apply Int.le_floor.mpr
    have e : (c : ℚ) / t * 100 + 1 / 2 = ((c : ℚ) * 200 + t) / (2 * t) := by
      field_simp
      ring
    rw [e, le_div_iff₀ (by positivity)]
    have hc' : (1 : ℚ) ≤ c := by exact_mod_cast hc
    have ht' : (t : ℚ) ≤ 199 := by exact_mod_cast ht
    push_cast
    nlinarith
  omega

/-- C2 amended: for every nonempty check list, the score is the rounded
percentage of compliant checks, an integer in [0, 100]; zero violations
force score 100 and zero compliant checks force score 0; and as long as
there are at most 199 checks the converses hold as well (the
counterexample shows they fail beyond that). -/
theorem C2_complianceScore_amended (checks : List ComplianceCheck)
    (h : checks ≠ []) :
    (processComplianceChecks checks).overallScore =
      some (jsRound (((processComplianceChecks checks).compliantChecks.length : ℚ) /
        (((processComplianceChecks checks).totalChecks : ℚ)) * 100)) ∧
    0 ≤ (processComplianceChecks checks).overallScore.getD 0 ∧
    (processComplianceChecks checks).overallScore.getD 0 ≤ 100 ∧
    ((processComplianceChecks checks).violations.length = 0 →
      (processComplianceChecks checks).overallScore = some 100) ∧
    ((processComplianceChecks checks).compliantChecks.length = 0 →
      (processComplianceChecks checks).overallScore = some 0) ∧
    (checks.length ≤ 199 →
      (((processComplianceChecks checks).overallScore = some 100) ↔
        (processComplianceChecks checks).violations.length = 0) ∧
      (((processComplianceChecks checks).overallScore = some 0) ↔
        (processComplianceChecks checks).compliantChecks.length = 0)) := by
  have ht : 0 < checks.length := List.length_pos.mpr h
  have ht0 : checks.length ≠ 0 := ht.ne'
  have hscore := processComplianceChecks_score checks ht0
  have hviol : (processComplianceChecks checks).violations =
      checks.filter (fun c => c.status = CheckStatus.violation) := rfl
  have hcomp : (processComplianceChecks checks).compliantChecks =
      checks.filter (fun c => c.status = CheckStatus.compliant) := rfl
  have htot : (processComplianceChecks checks).totalChecks = checks.length := rfl
  have hsum := length_filter_status checks
  have hct : (checks.filter (fun c => c.status = CheckStatus.compliant)).length ≤
      checks.length := List.length_filter_le _ _
  refine ⟨?_, ?_, ?_, ?_, ?_, ?_⟩
  · rw [hscore, hcomp, htot]
  · rw [hscore]
    simpa using jsRound_score_nonneg _ _
  · rw [hscore]
    simpa using jsRound_score_le_100 _ _ hct ht
  · intro hv0
    rw [hviol] at hv0
    have hceq : (checks.filter (fun c => c.status = CheckStatus.compliant)).length =
        checks.length := by omega
    rw [hscore, hceq]
    rw [jsRound_score_full _ ht]
  · intro hc0
    rw [hcomp] at hc0
    rw [hscore, hc0]
    norm_num
    rw [jsRound_eq_floor]
    norm_num [Int.floor_eq_iff]
  · intro ht199
    constructor
    · constructor
      · intro hs
        rw [hviol]
        by_contra hvne
        have hclt : (checks.filter (fun c => c.status = CheckStatus.compliant)).length <
            checks.length := by omega
        have hlt := jsRound_score_lt_100 _ _ hclt ht199
        rw [hscore] at hs
        have heq : jsRound (((checks.filter
            (fun c => c.status = CheckStatus.compliant)).length : ℚ) /
            (checks.length : ℚ) * 100) = 100 := Option.some.inj hs
        omega
      · intro hv0
        rw [hviol] at hv0
        have hceq : (checks.filter (fun c => c.status = CheckStatus.compliant)).length =
            checks.length := by omega
        rw [hscore, hceq, jsRound_score_full _ ht]
    · constructor
      · intro hs
        rw [hcomp]
        by_contra hcne
        have hcpos : 0 < (checks.filter (fun c => c.status = CheckStatus.compliant)).length := by
          omega
        have hpos := jsRound_score_pos _ _ hcpos ht199 ht
        rw [hscore] at hs
        have heq : jsRound (((checks.filter
            (fun c => c.status = CheckStatus.compliant)).length : ℚ) /
            (checks.length : ℚ) * 100) = 0 := Option.some.inj hs
        omega
      · intro hc0
        rw [hcomp] at hc0
        rw [hscore, hc0]
        norm_num
        rw [jsRound_eq_floor]
        norm_num [Int.floor_eq_iff]

/-- C2 amended witness: one compliant check and one violation give score
round(100·1/2) = 50, inside all the amended bounds. -/
theorem C2_complianceScore_amended_witness :
    c2WitnessChecks ≠ [] ∧
    ((processComplianceChecks c2WitnessChecks).overallScore =
      some (jsRound (((processComplianceChecks c2WitnessChecks).compliantChecks.length : ℚ) /
        (((processComplianceChecks c2WitnessChecks).totalChecks : ℚ)) * 100)) ∧
    0 ≤ (processComplianceChecks c2WitnessChecks).overallScore.getD 0 ∧
    (processComplianceChecks c2WitnessChecks).overallScore.getD 0 ≤ 100 ∧
    ((processComplianceChecks c2WitnessChecks).violations.length = 0 →
      (processComplianceChecks c2WitnessChecks).overallScore = some 100) ∧
    ((processComplianceChecks c2WitnessChecks).compliantChecks.length = 0 →
      (processComplianceChecks c2WitnessChecks).overallScore = some 0) ∧
    (c2WitnessChecks.length ≤ 199 →
      (((processComplianceChecks c2WitnessChecks).overallScore = some 100) ↔
        (processComplianceChecks c2WitnessChecks).violations.length = 0) ∧
      (((processComplianceChecks c2WitnessChecks).overallScore = some 0) ↔
        (processComplianceChecks c2WitnessChecks).compliantChecks.length = 0))) :=
  ⟨by simp [c2WitnessChecks], C2_complianceScore_amended c2WitnessChecks (by simp [c2WitnessChecks])⟩

end ReportingSystem
